import Mathlib

/-!
Shallow embedding of the historical-data ingestion pipeline of the
AutoGrowthTradingSystem repository, with proofs checking the
specification's claims against it.

Modelled source files:
- trading_bot/data/database.py  (class Database: init_database,
  save_price_data_to_coin_table, get_last_collected_timestamp,
  get_missing_data_period)
- trading_bot/scripts/collect_historical_data.py  (the sequential, batch
  and async fetch loops, _calculate_batch_size, _rate_limit,
  collect_missing_data)
- trading_bot/scripts/progress_tracker.py  (class ProgressTracker)

Conventions: times are integer epoch milliseconds (Python ints are
unbounded, so Int).  SQLite REAL price columns are opaque payloads for
every claim considered here, so they are modelled as Int.  A SQLite
table is an association list in rowid order; INSERT OR REPLACE on a
UNIQUE key deletes the conflicting row and appends the fresh row, which
is SQLite's observable behaviour.  The network is an oracle from a
request to either a response or a transport error, and while-loops are
modelled with explicit fuel (a fuelOut marker records the truncation,
which has no Python counterpart).
-/

namespace AutoGrowth

/-- One OHLCV row of a per-coin per-interval table, mirroring the columns
timestamp, open_price, high_price, low_price, close_price, volume of the
tables created by Database.init_database (the id and created_at columns
are SQLite bookkeeping and appear in no claim). -/
structure Candle where
  timestamp : Int
  open_price : Int
  high_price : Int
  low_price : Int
  close_price : Int
  volume : Int
deriving DecidableEq, Repr

/-- Lookup in an association list (first matching key). -/
def alGet? {κ α : Type} [DecidableEq κ] : List (κ × α) → κ → Option α
  | [], _ => none
  | (k, v) :: rest, key => if k = key then some v else alGet? rest key

/-- Replace the value stored at a key, or append the pair if the key is
absent (how the model tracks a row keyed by a UNIQUE column). -/
def alSet {κ α : Type} [DecidableEq κ] : List (κ × α) → κ → α → List (κ × α)
  | [], key, v => [(key, v)]
  | (k, w) :: rest, key, v =>
    if k = key then (key, v) :: rest else (k, w) :: alSet rest key v

/-- Does some row of the list carry this timestamp?  (the natural-key
membership test behind UNIQUE(timestamp)). -/
def candleKeyMem (rows : List Candle) (ts : Int) : Bool :=
  rows.any fun c => c.timestamp == ts

/-- One INSERT OR REPLACE into a table with UNIQUE(timestamp): SQLite
deletes any row with the same timestamp and appends the new row. -/
def upsertCandle (rows : List Candle) (c : Candle) : List Candle :=
  rows.filter (fun r => !(r.timestamp == c.timestamp)) ++ [c]

/-- The insert loop of Database.save_price_data_to_coin_table: one
INSERT OR REPLACE per batch item, in batch order. -/
def saveRows (rows : List Candle) (data : List Candle) : List Candle :=
  data.foldl upsertCandle rows

/-- Keep only the last row per timestamp, in order of last occurrence:
the net effect of a batch of INSERT OR REPLACE statements on the
timestamps the batch itself carries. -/
def dedupLast : List Candle → List Candle
  | [] => []
  | c :: cs => if candleKeyMem cs c.timestamp then dedupLast cs else c :: dedupLast cs

/-- State of the SQLite database as the ingestion pipeline sees it: the
names of the per-coin per-interval tables that exist (created by
Database.init_database), their rows in rowid order (an absent entry is
an existing empty table), and the data_collection_status table keyed by
its UNIQUE (symbol, interval) pair.  The status row's last_updated
column (CURRENT_TIMESTAMP) and the unrelated price_data /
sentiment_data / realtime_data / trades tables appear in no claim and
are omitted. -/
structure Database where
  table_names : List String
  table_rows : List (String × List Candle)
  data_collection_status : List ((String × String) × Int)
deriving DecidableEq, Repr

/-- The 50-coin universe hard-coded in Database.init_database (the same
list as CoinsConfig). -/
def coins : List String :=
  ["ETHUSDT", "BTCUSDT", "SUIUSDT", "SOLUSDT", "XRPUSDT", "ERAUSDT", "ENAUSDT",
   "PENGUUSDT", "DOGEUSDT", "HBARUSDT", "PEPEUSDT", "ADAUSDT", "CRVUSDT",
   "TRXUSDT", "BONKUSDT", "AVAXUSDT", "UNIUSDT", "OMUSDT", "LINKUSDT",
   "CFXUSDT", "BCHUSDT", "WIFUSDT", "XLMUSDT", "CUSDT", "SPKUSDT",
   "SEIUSDT", "KERNELUSDT", "IDEXUSDT", "LTCUSDT", "CAKEUSDT",
   "SYRUPUSDT", "REIUSDT", "WLDUSDT", "FISUSDT", "TRUMPUSDT",
   "ASRUSDT", "FLOKIUSDT", "ENSUSDT", "ETHFIUSDT", "AAVEUSDT",
   "NEARUSDT", "SAHARAUSDT", "INJUSDT", "ONDOUSDT", "NEIROUSDT",
   "TAOUSDT", "CVXUSDT", "TONUSDT", "BIGTIMEUSDT", "SLPUSDT"]

/-- The interval suffixes Database.init_database creates tables for
(15 entries; note the monthly suffix is the string 1month). -/
def db_intervals : List String :=
  ["1m", "3m", "5m", "15m", "30m", "1h", "2h", "4h", "6h", "8h", "12h",
   "1d", "3d", "1w", "1month"]

/-- The interval list both collector classes iterate (15 entries; note
the monthly interval is the Binance API string 1M, not 1month). -/
def collector_intervals : List String :=
  ["1m", "3m", "5m", "15m", "30m", "1h", "2h", "4h", "6h", "8h", "12h",
   "1d", "3d", "1w", "1M"]

/-- The per-coin per-interval table names CREATE TABLE IF NOT EXISTS is
run for in Database.init_database: {coin}_{interval} over the 50 coins
and the 15 database interval suffixes. -/
def init_table_names : List String :=
  List.flatten (coins.map fun coin => db_intervals.map fun interval => coin ++ "_" ++ interval)

/-- The database immediately after Database.init_database on a fresh
file: all 750 per-coin tables exist and are empty, and
data_collection_status is empty. -/
def init_database : Database :=
  Database.mk init_table_names [] []

/-- Database.save_price_data_to_coin_table: one transaction that INSERT
OR REPLACEs every batch item into the {symbol}_{interval} table and, for
a non-empty batch (the `if data:` guard), INSERT OR REPLACEs the
(symbol, interval) status row with the batch's last element's timestamp
(data[-1]['timestamp']).  If the addressed table does not exist the
first INSERT raises sqlite3.OperationalError; the connection context
rolls the transaction back and the except block re-raises, so the state
is unchanged and the caller sees the error (carrying the table name).
An empty batch executes no INSERT at all and succeeds even when the
table is missing. -/
def save_price_data_to_coin_table (db : Database) (symbol interval : String)
    (data : List Candle) : Except String Database :=
  let table_name := symbol ++ "_" ++ interval
  match data.getLast? with
  | none => Except.ok db
  | some last =>
    if table_name ∈ db.table_names then
      Except.ok (Database.mk db.table_names
        (alSet db.table_rows table_name
          (saveRows ((alGet? db.table_rows table_name).getD []) data))
        (alSet db.data_collection_status (symbol, interval) last.timestamp))
    else
      Except.error table_name

/-- Database.get_last_collected_timestamp: SELECT of the status row for
(symbol, interval); None when no row exists (a NULL value in an existing
row is indistinguishable from a missing row to the caller and is
modelled the same way). -/
def get_last_collected_timestamp (db : Database) (symbol interval : String) :
    Option Int :=
  alGet? db.data_collection_status (symbol, interval)

/-- The 1095-day configured history window, in milliseconds. -/
def historyWindowMs : Int := 1095 * 24 * 60 * 60 * 1000

/-- The start_time / end_time dict returned by
Database.get_missing_data_period. -/
structure MissingPeriod where
  start_time : Int
  end_time : Int
deriving DecidableEq, Repr

/-- Database.get_missing_data_period.  Python's `if last_timestamp:` is
truthiness: both None and 0 take the else branch, which returns the full
1095-day window ending now.  The source calls datetime.now() separately
in each branch; both calls are modelled by the single parameter now
(millisecond resolution). -/
def get_missing_data_period (db : Database) (symbol interval : String)
    (now : Int) : Option MissingPeriod :=
  match get_last_collected_timestamp db symbol interval with
  | some last_timestamp =>
    if last_timestamp ≠ 0 then
      some (MissingPeriod.mk (last_timestamp + 1) now)
    else
      some (MissingPeriod.mk (now - historyWindowMs) now)
  | none => some (MissingPeriod.mk (now - historyWindowMs) now)

deriving instance DecidableEq for Except

/-- One kline request: the params dict sent to GET /api/v3/klines
(startTime, endTime, limit; symbol and interval are fixed per loop and
carry no information the claims need). -/
structure Req where
  startTime : Int
  endTime : Int
  limit : Nat
deriving DecidableEq, Repr

/-- One kline of a Binance response array: index 0 is the open time,
indices 1..5 the OHLCV payload, index 6 the close time. -/
structure Kline where
  openTime : Int
  open_price : Int
  high_price : Int
  low_price : Int
  close_price : Int
  volume : Int
  close_time : Int
deriving DecidableEq, Repr

/-- Observable events of a fetch loop, in program order: an HTTP request
together with its response (error means the transport raised or a
non-200 status, depending on the loop), a pass through _rate_limit (with
the sleep it performed), or a plain pacing time.sleep. -/
inductive Event where
  | call (req : Req) (resp : Except Unit (List Kline))
  | rateLimitWait (ms : Nat)
  | sleepPause (ms : Nat)
deriving DecidableEq, Repr

/-- Caller-visible outcome of a fetch: the rows of the returned
DataFrame, the catch-all except path (which returns an empty DataFrame,
discarding everything collected), or fuel exhaustion of the model. -/
inductive FetchResult where
  | frame (data : List Kline)
  | exceptionEmpty
  | fuelOut
deriving DecidableEq, Repr

/-- Prepend one response's rows to the data a loop's remaining
iterations produce. -/
def prependData (d : List Kline) : FetchResult → FetchResult
  | FetchResult.frame ds => FetchResult.frame (d ++ ds)
  | FetchResult.exceptionEmpty => FetchResult.exceptionEmpty
  | FetchResult.fuelOut => FetchResult.fuelOut

/-- FastHistoricalDataCollector._calculate_batch_size: hand-tuned window
width in milliseconds per interval (1000 buckets each), with the 1m
width as default for unknown intervals. -/
def calculate_batch_size (interval : String) : Int :=
  if interval = "1m" then 1000 * 60 * 1000
  else if interval = "3m" then 1000 * 3 * 60 * 1000
  else if interval = "5m" then 1000 * 5 * 60 * 1000
  else if interval = "15m" then 1000 * 15 * 60 * 1000
  else if interval = "30m" then 1000 * 30 * 60 * 1000
  else if interval = "1h" then 1000 * 60 * 60 * 1000
  else if interval = "2h" then 1000 * 2 * 60 * 60 * 1000
  else if interval = "4h" then 1000 * 4 * 60 * 60 * 1000
  else if interval = "6h" then 1000 * 6 * 60 * 60 * 1000
  else if interval = "8h" then 1000 * 8 * 60 * 60 * 1000
  else if interval = "12h" then 1000 * 12 * 60 * 60 * 1000
  else if interval = "1d" then 1000 * 24 * 60 * 60 * 1000
  else if interval = "3d" then 1000 * 3 * 24 * 60 * 60 * 1000
  else if interval = "1w" then 1000 * 7 * 24 * 60 * 60 * 1000
  else if interval = "1M" then 1000 * 30 * 24 * 60 * 60 * 1000
  else 1000 * 60 * 1000

/-- The while-loop of HistoricalDataCollector.get_historical_data: while
current_start < end_time, request (startTime=current_start,
endTime=end_time, limit=1000); raise_for_status sends any HTTP error to
the function-level except, which returns an empty DataFrame (discarding
everything already collected); an empty response breaks (returning what
was collected); otherwise the rows are accumulated, current_start
becomes last_candle[6] + 1 (close_time + 1 ms) and the loop sleeps 0.1 s
before re-testing the condition. -/
def ghd_go (api : Req → Except Unit (List Kline)) (end_time : Int) :
    Nat → Int → List Event × FetchResult
  | 0, current_start =>
    if current_start < end_time then ([], FetchResult.fuelOut)
    else ([], FetchResult.frame [])
  | fuel + 1, current_start =>
    if current_start < end_time then
      match api (Req.mk current_start end_time 1000) with
      | Except.error _ =>
        ([Event.call (Req.mk current_start end_time 1000) (Except.error ())],
          FetchResult.exceptionEmpty)
      | Except.ok [] =>
        ([Event.call (Req.mk current_start end_time 1000) (Except.ok [])],
          FetchResult.frame [])
      | Except.ok (k :: ks) =>
        (Event.call (Req.mk current_start end_time 1000) (Except.ok (k :: ks)) ::
            Event.sleepPause 100 ::
            (ghd_go api end_time fuel ((ks.getLastD k).close_time + 1)).1,
          prependData (k :: ks)
            (ghd_go api end_time fuel ((ks.getLastD k).close_time + 1)).2)
    else ([], FetchResult.frame [])

/-- HistoricalDataCollector.get_historical_data (the sequential
pagination loop), entered at start_time. -/
def get_historical_data (api : Req → Except Unit (List Kline))
    (start_time end_time : Int) (fuel : Nat) : List Event × FetchResult :=
  ghd_go api end_time fuel start_time

/-- Per-window outcome accumulator of the batch loop: the list of
non-empty windows collected (all_data), or fuel exhaustion. -/
inductive BatchAcc where
  | windows (ws : List (List Kline))
  | fuelOut
deriving DecidableEq, Repr

/-- Prepend one non-empty window to the windows the remaining iterations
collect. -/
def prependWindow (d : List Kline) : BatchAcc → BatchAcc
  | BatchAcc.windows ws => BatchAcc.windows (d :: ws)
  | BatchAcc.fuelOut => BatchAcc.fuelOut

/-- The while-loop of FastHistoricalDataCollector.get_historical_data_batch:
while current_start < end_time, the window is
[current_start, min(current_start + batch_size, end_time)] with
limit=1000; on any exception the loop advances to the window end and
continues; on an empty response it advances to the window end; on a
non-empty response it stores the window and advances to
data[-1][0] + 1 (the last kline's OPEN time + 1 ms); the 0.05 s pacing
sleep runs inside the try after the advance, so it is skipped on the
exception path. -/
def ghdb_go (api : Req → Except Unit (List Kline)) (interval : String)
    (end_time : Int) : Nat → Int → List Event × BatchAcc
  | 0, current_start =>
    if current_start < end_time then ([], BatchAcc.fuelOut)
    else ([], BatchAcc.windows [])
  | fuel + 1, current_start =>
    if current_start < end_time then
      match api (Req.mk current_start
          (min (current_start + calculate_batch_size interval) end_time) 1000) with
      | Except.error _ =>
        (Event.call (Req.mk current_start
              (min (current_start + calculate_batch_size interval) end_time) 1000)
              (Except.error ()) ::
            (ghdb_go api interval end_time fuel
              (min (current_start + calculate_batch_size interval) end_time)).1,
          (ghdb_go api interval end_time fuel
            (min (current_start + calculate_batch_size interval) end_time)).2)
      | Except.ok [] =>
        (Event.call (Req.mk current_start
              (min (current_start + calculate_batch_size interval) end_time) 1000)
              (Except.ok []) ::
            Event.sleepPause 50 ::
            (ghdb_go api interval end_time fuel
              (min (current_start + calculate_batch_size interval) end_time)).1,
          (ghdb_go api interval end_time fuel
            (min (current_start + calculate_batch_size interval) end_time)).2)
      | Except.ok (k :: ks) =>
        (Event.call (Req.mk current_start
              (min (current_start + calculate_batch_size interval) end_time) 1000)
              (Except.ok (k :: ks)) ::
            Event.sleepPause 50 ::
            (ghdb_go api interval end_time fuel ((ks.getLastD k).openTime + 1)).1,
          prependWindow (k :: ks)
            (ghdb_go api interval end_time fuel ((ks.getLastD k).openTime + 1)).2)
    else ([], BatchAcc.windows [])

/-- Structural worker for the duplicate drop: keep a row only when its
open timestamp has not been seen yet. -/
def dedupFirstByTsAux (seen : List Int) : List Kline → List Kline
  | [] => []
  | k :: ks =>
    if k.openTime ∈ seen then dedupFirstByTsAux seen ks
    else k :: dedupFirstByTsAux (k.openTime :: seen) ks

/-- combined_df.drop_duplicates(subset=['timestamp']): keep the first
row per open timestamp. -/
def dedupFirstByTs (l : List Kline) : List Kline := dedupFirstByTsAux [] l

/-- combined_df.sort_values('timestamp'): stable ascending sort by open
timestamp. -/
def sortByOpenTime (l : List Kline) : List Kline :=
  List.insertionSort (fun a b => a.openTime ≤ b.openTime) l

/-- FastHistoricalDataCollector.get_historical_data_batch: run the
windowed loop from start_time, then (if any window produced rows)
concatenate, de-duplicate by timestamp and sort ascending; with no
collected rows an empty DataFrame is returned. -/
def get_historical_data_batch (api : Req → Except Unit (List Kline))
    (interval : String) (start_time end_time : Int) (fuel : Nat) :
    List Event × FetchResult :=
  let run := ghdb_go api interval end_time fuel start_time
  match run.2 with
  | BatchAcc.windows [] => (run.1, FetchResult.frame [])
  | BatchAcc.windows ws =>
    (run.1, FetchResult.frame (sortByOpenTime (dedupFirstByTs ws.flatten)))
  | BatchAcc.fuelOut => (run.1, FetchResult.fuelOut)

/-- FastHistoricalDataCollector.max_requests_per_second. -/
def max_requests_per_second : Nat := 10

/-- FastHistoricalDataCollector._rate_limit, acting on the instance's
request_count: increment, and either sleep 1 s and reset the counter
(when the incremented counter has reached max_requests_per_second) or
sleep the 0.1 s request_delay.  Returns the new counter and the sleep
performed, in milliseconds. -/
def rate_limit_step (request_count : Nat) : Nat × Nat :=
  let c := request_count + 1
  if max_requests_per_second ≤ c then (0, 1000) else (c, 100)

/-- The while-loop of FastHistoricalDataCollector.get_historical_data_async:
each iteration awaits _rate_limit and then issues the request with
limit=1000 and endTime=end_time; a non-200 status logs and breaks,
keeping the rows already accumulated; an empty body breaks; a non-empty
body accumulates and advances current_start to last_candle[6] + 1.
(The enclosing except, which would return an empty DataFrame, is
unreachable with the network modelled as a total oracle.) -/
def ghda_go (api : Req → Except Unit (List Kline)) (end_time : Int) :
    Nat → Int → Nat → List Event × FetchResult
  | 0, current_start, _ =>
    if current_start < end_time then ([], FetchResult.fuelOut)
    else ([], FetchResult.frame [])
  | fuel + 1, current_start, request_count =>
    if current_start < end_time then
      match api (Req.mk current_start end_time 1000) with
      | Except.error _ =>
        ([Event.rateLimitWait (rate_limit_step request_count).2,
            Event.call (Req.mk current_start end_time 1000) (Except.error ())],
          FetchResult.frame [])
      | Except.ok [] =>
        ([Event.rateLimitWait (rate_limit_step request_count).2,
            Event.call (Req.mk current_start end_time 1000) (Except.ok [])],
          FetchResult.frame [])
      | Except.ok (k :: ks) =>
        (Event.rateLimitWait (rate_limit_step request_count).2 ::
            Event.call (Req.mk current_start end_time 1000) (Except.ok (k :: ks)) ::
            (ghda_go api end_time fuel ((ks.getLastD k).close_time + 1)
              (rate_limit_step request_count).1).1,
          prependData (k :: ks)
            (ghda_go api end_time fuel ((ks.getLastD k).close_time + 1)
              (rate_limit_step request_count).1).2)
    else ([], FetchResult.frame [])

/-- FastHistoricalDataCollector.get_historical_data_async, entered with
the instance's request_count at 0. -/
def get_historical_data_async (api : Req → Except Unit (List Kline))
    (start_time end_time : Int) (fuel : Nat) : List Event × FetchResult :=
  ghda_go api end_time fuel start_time 0

/-- The API requests of an event trace, each with its response. -/
def callsOf (evs : List Event) : List (Req × Except Unit (List Kline)) :=
  evs.filterMap fun e =>
    match e with
    | Event.call r resp => some (r, resp)
    | _ => none

/-- Is this event a pass through the rate limiter? -/
def isRateLimitEv : Event → Bool
  | Event.rateLimitWait _ => true
  | _ => false

/-- Every API request of the trace is immediately preceded by a pass
through the rate limiter. -/
def rateLimitedTrace : List Event → Bool
  | [] => true
  | Event.rateLimitWait _ :: Event.call _ _ :: rest => rateLimitedTrace rest
  | Event.call _ _ :: _ => false
  | _ :: rest => rateLimitedTrace rest

/-- The rows of the DataFrame the Python caller receives (the except
paths return an empty DataFrame; fuel exhaustion has no Python
counterpart and is also mapped to empty). -/
def resultFrame : FetchResult → List Kline
  | FetchResult.frame d => d
  | FetchResult.exceptionEmpty => []
  | FetchResult.fuelOut => []

/-- The dict built from one DataFrame row before saving: timestamp in
ms plus the OHLCV payload. -/
def klineToCandle (k : Kline) : Candle :=
  Candle.mk k.openTime k.open_price k.high_price k.low_price k.close_price k.volume

/-- HistoricalDataCollector.collect_missing_data: reads the missing
period; returns an empty DataFrame when the gap is shorter than
60,000 ms (the fixed 1-minute threshold applied to every interval).
Past that check the source calls self.get_historical_data_batch — a
method that exists only on FastHistoricalDataCollector, not on
HistoricalDataCollector — so the call raises AttributeError before any
HTTP request is issued; the function-level except logs and returns an
empty DataFrame, leaving the database untouched.  The returned triple is
(events performed, rows of the returned DataFrame, database after the
call). -/
def collect_missing_data (db : Database) (symbol interval : String)
    (now : Int) : List Event × List Kline × Database :=
  match get_missing_data_period db symbol interval now with
  | none => ([], [], db)
  | some missing_period =>
    if missing_period.end_time - missing_period.start_time < 60000 then
      ([], [], db)
    else
      ([], [], db)

/-- The current_coin_progress sub-dict of the progress document; the
empty dict {} is represented with all fields absent/empty. -/
structure CoinProgress where
  start_time : Option String
  completed_intervals : List String
  failed_intervals : List String
  current_interval : Option String
deriving DecidableEq, Repr

/-- The persisted progress document of ProgressTracker
(data_collection_progress.json). -/
structure Progress where
  start_time : String
  total_coins : Nat
  total_intervals : Nat
  completed_coins : List String
  current_coin : Option String
  current_coin_progress : CoinProgress
  completed_intervals : List (String × List String)
  failed_coins : List String
  failed_intervals : List (String × List String)
  last_successful_time : Option String
  total_completed : Nat
  total_failed : Nat
deriving DecidableEq, Repr

/-- The empty current_coin_progress dict. -/
def emptyCoinProgress : CoinProgress := CoinProgress.mk none [] [] none

/-- ProgressTracker._create_default_progress (also the document built by
load_progress when no file exists), stamped with the current time. -/
def default_progress (now : String) : Progress :=
  Progress.mk now 50 16 [] none emptyCoinProgress [] [] [] none 0 0

/-- ProgressTracker.load_progress: an existing file is read and left as
it is; a missing file makes load_progress build the initial document AND
persist it (save_progress(progress)) before returning.  The result is
(document now in memory, file contents after the call).  The
corrupt-file exception path (default document returned without saving)
is outside the model: the file is either absent or a valid document. -/
def load_progress (now : String) (file : Option Progress) :
    Progress × Option Progress :=
  match file with
  | some p => (p, some p)
  | none =>
    let p := default_progress now
    (p, some p)

/-- ProgressTracker.get_remaining_coins: all coins not completed and not
failed, in original order; then, if a truthy current_coin is recorded
and is not already in the list, it is inserted at the front. -/
def get_remaining_coins (p : Progress) (all_coins : List String) :
    List String :=
  let remaining := all_coins.filter fun coin =>
    decide (coin ∉ p.completed_coins) && decide (coin ∉ p.failed_coins)
  match p.current_coin with
  | none => remaining
  | some cc => if cc ≠ "" ∧ cc ∉ remaining then cc :: remaining else remaining

/-- ProgressTracker.get_remaining_intervals: the same computation per
symbol over the interval list, with the in-flight interval taken from
current_coin_progress. -/
def get_remaining_intervals (p : Progress) (symbol : String)
    (all_intervals : List String) : List String :=
  let completed := (alGet? p.completed_intervals symbol).getD []
  let failed := (alGet? p.failed_intervals symbol).getD []
  let remaining := all_intervals.filter fun interval =>
    decide (interval ∉ completed) && decide (interval ∉ failed)
  match p.current_coin_progress.current_interval with
  | none => remaining
  | some ci => if ci ≠ "" ∧ ci ∉ remaining then ci :: remaining else remaining

/-- The summary dict computed by ProgressTracker.get_progress_summary
(the two percentages are float divisions, modelled exactly in ℚ). -/
structure ProgressSummary where
  coin_progress : ℚ
  interval_progress : ℚ
  completed_coins : Nat
  failed_coins : Nat
  total_completed_intervals : Nat
  total_failed_intervals : Nat
  current_coin : Option String
  current_interval : Option String
  start_time : String
  last_successful_time : Option String
deriving DecidableEq, Repr

/-- ProgressTracker.get_progress_summary: pure computation over the
in-memory document; no write. -/
def get_progress_summary (p : Progress) : ProgressSummary :=
  let completed_coins := p.completed_coins.length
  let failed_coins := p.failed_coins.length
  let total_completed_intervals :=
    (p.completed_intervals.map fun q => q.2.length).sum
  let total_failed_intervals :=
    (p.failed_intervals.map fun q => q.2.length).sum
  let coin_progress : ℚ :=
    if 0 < p.total_coins then
      ((completed_coins : ℚ) / (p.total_coins : ℚ)) * 100
    else 0
  let interval_progress : ℚ :=
    if 0 < p.total_coins * p.total_intervals then
      ((total_completed_intervals : ℚ) /
        ((p.total_coins * p.total_intervals : Nat) : ℚ)) * 100
    else 0
  ProgressSummary.mk coin_progress interval_progress completed_coins
    failed_coins total_completed_intervals total_failed_intervals
    p.current_coin p.current_coin_progress.current_interval p.start_time
    p.last_successful_time

/-- The --status CLI path: construct a ProgressTracker (whose __init__
runs load_progress, possibly creating the file) and run
print_progress_summary, which only reads the in-memory document.
Returns (summary printed, file contents after the operation). -/
def status_operation (now : String) (file : Option Progress) :
    ProgressSummary × Option Progress :=
  let lp := load_progress now file
  (get_progress_summary lp.1, lp.2)

/-! Concrete inputs used by witnesses and counterexamples. -/

/-- The literal 1m. -/
def iv1m : String := "1m"

/-- The literal 1h. -/
def iv1h : String := "1h"

/-- The literal 1M (the collectors' monthly interval string). -/
def iv1M : String := "1M"

/-- The literal BTCUSDT. -/
def symBTC : String := "BTCUSDT"

/-- A coin name for progress-tracker evaluations. -/
def cA : String := "AAA"

/-- A second coin name for progress-tracker evaluations. -/
def cB : String := "BBB"

/-- A fixed ISO-style time string for progress documents. -/
def t0 : String := "2025-01-01T00:00:00"

/-- Oracle answering every request with an empty page. -/
def apiEmpty : Req → Except Unit (List Kline) := fun _ => Except.ok []

/-- Oracle failing every request with a transport error. -/
def apiFail : Req → Except Unit (List Kline) := fun _ => Except.error ()

/-- A kline in the second batch window of a 1m run starting at 0. -/
def kline2 : Kline := Kline.mk 60000000 1 2 0 1 5 60059999

/-- Oracle that fails the first 1m batch window, returns one kline for
the window starting at 60000000, and an empty page afterwards. -/
def apiFailThenData : Req → Except Unit (List Kline) := fun r =>
  if r.startTime = 0 then Except.error ()
  else if r.startTime = 60000000 then Except.ok [kline2]
  else Except.ok []

/-- The single call (request with its empty response) of a one-page
sequential run over [0, 100). -/
def wPair : Req × Except Unit (List Kline) := (Req.mk 0 100 1000, Except.ok [])

/-- The single coin table used by the small concrete database. -/
def table1name : String := symBTC ++ "_" ++ iv1m

/-- A database holding one empty BTCUSDT_1m table. -/
def wDb : Database := Database.mk [table1name] [] []

/-- A candle with timestamp 1. -/
def wCandle : Candle := Candle.mk 1 10 20 5 15 100

/-- A candle with timestamp 2. -/
def wCandle2 : Candle := Candle.mk 2 11 21 6 16 101

/-- An ascending two-candle batch. -/
def wBatch : List Candle := [wCandle, wCandle2]

/-- The database after storing wBatch into wDb. -/
def wDb1 : Database :=
  Database.mk [table1name] [(table1name, [wCandle, wCandle2])]
    [((symBTC, iv1m), 2)]

/-- A two-candle batch in descending timestamp order. -/
def c5Batch : List Candle := [wCandle2, wCandle]

/-- A status store carrying last_collected_timestamp 0 for BTCUSDT 1m. -/
def c2Db : Database := Database.mk [] [] [((symBTC, iv1m), 0)]

/-- A concrete current time in epoch milliseconds. -/
def c2Now : Int := 1700000000000

/-- A status store carrying last_collected_timestamp 5 for BTCUSDT 1m. -/
def c2Db5 : Database := Database.mk [] [] [((symBTC, iv1m), 5)]

/-- A progress document whose failed set contains AAA while AAA is also
recorded as the in-flight coin (and likewise for the 1m interval of
AAA), as left behind by a crash between persisted transitions. -/
def c4Progress : Progress :=
  Progress.mk t0 50 16 [] (some cA)
    (CoinProgress.mk (some t0) [] [] (some iv1m))
    [] [cA] [(cA, [iv1m])] none 0 1

/-! Theorems.  Each claim of the specification is settled by exactly one
theorem below (plus, where needed, a closed witness or counterexample). -/

theorem alGet?_alSet_self {κ α : Type} [DecidableEq κ]
    (l : List (κ × α)) (k : κ) (v : α) : alGet? (alSet l k v) k = some v := by
  induction l with
  | nil => simp [alSet, alGet?]
  | cons p rest ih =>
    obtain ⟨k1, v1⟩ := p
    by_cases h : k1 = k <;> simp [alSet, alGet?, h, ih]

theorem alSet_alSet_self {κ α : Type} [DecidableEq κ]
    (l : List (κ × α)) (k : κ) (v : α) :
    alSet (alSet l k v) k v = alSet l k v := by
  induction l with
  | nil => simp [alSet]
  | cons p rest ih =>
    obtain ⟨k1, v1⟩ := p
    by_cases h : k1 = k <;> simp [alSet, h, ih]

theorem mem_of_mem_dedupLast {c : Candle} :
    ∀ {data : List Candle}, c ∈ dedupLast data → c ∈ data := by
  intro data
  induction data with
  | nil => simp [dedupLast]
  | cons d ds ih =>
    by_cases h : candleKeyMem ds d.timestamp
    · intro hm
      simp only [dedupLast, h, if_true] at hm
      exact List.mem_cons_of_mem d (ih hm)
    · intro hm
      simp only [dedupLast, h, if_false] at hm
      rcases List.mem_cons.mp hm with h1 | h2
      · exact h1 ▸ List.mem_cons_self c ds
      · exact List.mem_cons_of_mem d (ih h2)

theorem candleKeyMem_of_mem {c : Candle} {data : List Candle}
    (h : c ∈ data) : candleKeyMem data c.timestamp = true := by
  simp only [candleKeyMem, List.any_eq_true]
  exact ⟨c, h, by simp⟩

/-- Normal form of the insert loop: surviving old rows (those whose
timestamp the batch does not mention, in their original order) followed
by the batch's last-occurrence rows. -/
theorem saveRows_eq_filter_append :
    ∀ (data rows : List Candle),
      saveRows rows data =
        rows.filter (fun r => !candleKeyMem data r.timestamp) ++ dedupLast data := by
  intro data
  induction data with
  | nil =>
    intro rows
    simp [saveRows, dedupLast, candleKeyMem]
  | cons c cs ih =>
    intro rows
    have step : saveRows rows (c :: cs) = saveRows (upsertCandle rows c) cs := rfl
    rw [step, ih]
    unfold upsertCandle
    rw [List.filter_append, List.filter_filter]
    by_cases h : candleKeyMem cs c.timestamp = true
    · have hsingle :
          List.filter (fun r => !candleKeyMem cs r.timestamp) [c] = [] := by
        simp [List.filter, h]
      have hpred : ∀ r : Candle,
          ((!candleKeyMem cs r.timestamp) && !(r.timestamp == c.timestamp))
            = !candleKeyMem (c :: cs) r.timestamp := by
        intro r
        simp only [candleKeyMem, List.any_cons, Bool.not_or]
        by_cases he : r.timestamp = c.timestamp
        · simp [he, Bool.and_comm]
        · have h1 : (r.timestamp == c.timestamp) = false := by simp [he]
          have h2 : (c.timestamp == r.timestamp) = false := by
            simp only [beq_eq_false_iff_ne, ne_eq]
            exact fun hc => he hc.symm
          simp [h1, h2, Bool.and_comm]
      rw [hsingle, List.append_nil]
      have : dedupLast (c :: cs) = dedupLast cs := by simp [dedupLast, h]
      rw [this]
      congr 1
      exact List.filter_congr fun r _ => hpred r
    · have hb : candleKeyMem cs c.timestamp = false := by
        simpa using h
      have hsingle :
          List.filter (fun r => !candleKeyMem cs r.timestamp) [c] = [c] := by
        simp [List.filter, hb]
      have hpred : ∀ r : Candle,
          ((!candleKeyMem cs r.timestamp) && !(r.timestamp == c.timestamp))
            = !candleKeyMem (c :: cs) r.timestamp := by
        intro r
        simp only [candleKeyMem, List.any_cons, Bool.not_or]
        by_cases he : r.timestamp = c.timestamp
        · simp [he, Bool.and_comm]
        · have h1 : (r.timestamp == c.timestamp) = false := by simp [he]
          have h2 : (c.timestamp == r.timestamp) = false := by
            simp only [beq_eq_false_iff_ne, ne_eq]
            exact fun hc => he hc.symm
          simp [h1, h2, Bool.and_comm]
      rw [hsingle]
      have : dedupLast (c :: cs) = c :: dedupLast cs := by simp [dedupLast, hb]
      rw [this, List.append_assoc, List.singleton_append]
      congr 1
      exact List.filter_congr fun r _ => hpred r

/-- Replaying the same batch of INSERT OR REPLACE statements is a no-op
on the table contents. -/
theorem saveRows_idem (rows data : List Candle) :
    saveRows (saveRows rows data) data = saveRows rows data := by
  rw [saveRows_eq_filter_append data rows, saveRows_eq_filter_append data]
  rw [List.filter_append, List.filter_filter]
  have h1 : (dedupLast data).filter (fun r => !candleKeyMem data r.timestamp) = [] := by
    apply List.filter_eq_nil_iff.mpr
    intro r hr
    simp [candleKeyMem_of_mem (mem_of_mem_dedupLast hr)]
  have h2 : ∀ r : Candle,
      ((!candleKeyMem data r.timestamp) && !candleKeyMem data r.timestamp)
        = !candleKeyMem data r.timestamp := by
    intro r; exact Bool.and_self _
  rw [h1, List.append_nil]
  congr 1
  exact List.filter_congr fun r _ => h2 r

/-- Unfolding of save_price_data_to_coin_table on a non-empty batch
whose table exists. -/
theorem save_eq_of_table_mem (db : Database) (symbol interval : String)
    (data : List Candle) (last : Candle) (hl : data.getLast? = some last)
    (hm : (symbol ++ "_" ++ interval) ∈ db.table_names) :
    save_price_data_to_coin_table db symbol interval data =
      Except.ok (Database.mk db.table_names
        (alSet db.table_rows (symbol ++ "_" ++ interval)
          (saveRows ((alGet? db.table_rows (symbol ++ "_" ++ interval)).getD []) data))
        (alSet db.data_collection_status (symbol, interval) last.timestamp)) := by
  simp [save_price_data_to_coin_table, hl, hm]

/-- Unfolding of save_price_data_to_coin_table on a non-empty batch
whose table does not exist. -/
theorem save_eq_of_table_not_mem (db : Database) (symbol interval : String)
    (data : List Candle) (last : Candle) (hl : data.getLast? = some last)
    (hm : (symbol ++ "_" ++ interval) ∉ db.table_names) :
    save_price_data_to_coin_table db symbol interval data =
      Except.error (symbol ++ "_" ++ interval) := by
  simp [save_price_data_to_coin_table, hl, hm]

/-- C1: storing the same candle batch twice through
Database.save_price_data_to_coin_table leaves the database — in
particular the per-(symbol, interval) table, with its row count and row
values — in exactly the state one store produces: the second store
returns the very same state, because each INSERT OR REPLACE overwrites
the row holding its timestamp (UNIQUE(timestamp)) and never adds a
duplicate row. -/
theorem save_price_data_to_coin_table_idempotent
    (db : Database) (symbol interval : String) (data : List Candle)
    (db1 : Database)
    (h : save_price_data_to_coin_table db symbol interval data = Except.ok db1) :
    save_price_data_to_coin_table db1 symbol interval data = Except.ok db1 := by
  cases hl : data.getLast? with
  | none =>
    have hd : data = [] := List.getLast?_eq_none_iff.mp hl
    subst hd
    have hdb : Except.ok db = Except.ok db1 := h
    injection hdb with hdb
    subst hdb
    rfl
  | some last =>
    by_cases hm : (symbol ++ "_" ++ interval) ∈ db.table_names
    · rw [save_eq_of_table_mem db symbol interval data last hl hm] at h
      injection h with h
      subst h
      rw [save_eq_of_table_mem (Database.mk db.table_names
            (alSet db.table_rows (symbol ++ "_" ++ interval)
              (saveRows ((alGet? db.table_rows (symbol ++ "_" ++ interval)).getD []) data))
            (alSet db.data_collection_status (symbol, interval) last.timestamp))
          symbol interval data last hl hm]
      have hget :
          (alGet? (alSet db.table_rows (symbol ++ "_" ++ interval)
              (saveRows ((alGet? db.table_rows (symbol ++ "_" ++ interval)).getD []) data))
            (symbol ++ "_" ++ interval)).getD []
          = saveRows ((alGet? db.table_rows (symbol ++ "_" ++ interval)).getD []) data := by
        rw [alGet?_alSet_self]
        rfl
      rw [hget, saveRows_idem, alSet_alSet_self, alSet_alSet_self]
    · rw [save_eq_of_table_not_mem db symbol interval data last hl hm] at h
      exact absurd h (by simp)

/-- C1 witness: a concrete database, batch and first-store result on
which the idempotence theorem applies. -/
theorem save_price_data_to_coin_table_idempotent_witness :
    save_price_data_to_coin_table wDb1 symBTC iv1m wBatch = Except.ok wDb1 :=
  save_price_data_to_coin_table_idempotent wDb symBTC iv1m wBatch wDb1 (by decide)

/-- C2 counterexample: with last_collected_timestamp = 0 stored for
(BTCUSDT, 1m), get_missing_data_period does not return
{start_time: 0 + 1, end_time: now}: Python truthiness (`if
last_timestamp:`) sends the stored 0 down the no-checkpoint branch,
which returns the full 1095-day window instead. -/
theorem get_missing_data_period_zero_counterexample :
    get_last_collected_timestamp c2Db symBTC iv1m = some 0
    ∧ get_missing_data_period c2Db symBTC iv1m c2Now
        = some (MissingPeriod.mk (c2Now - historyWindowMs) c2Now)
    ∧ c2Now - historyWindowMs ≠ 0 + 1 := by decide

/-- C2 (amended): when the status store holds a NONZERO
last_collected_timestamp T, get_missing_data_period returns
[T + 1, now], whose start strictly exceeds T (so no time at or before T
is requested again); when no timestamp is recorded it returns the full
1095-day window ending now; a recorded 0, however, also falls back to
the full window (Python truthiness), which is where the claim as stated
fails. -/
theorem get_missing_data_period_spec (db : Database)
    (symbol interval : String) (now : Int) :
    (∀ T : Int, get_last_collected_timestamp db symbol interval = some T →
      T ≠ 0 →
      get_missing_data_period db symbol interval now
          = some (MissingPeriod.mk (T + 1) now) ∧ T < T + 1)
    ∧ (get_last_collected_timestamp db symbol interval = none →
      get_missing_data_period db symbol interval now
          = some (MissingPeriod.mk (now - historyWindowMs) now))
    ∧ (get_last_collected_timestamp db symbol interval = some 0 →
      get_missing_data_period db symbol interval now
          = some (MissingPeriod.mk (now - historyWindowMs) now)) := by
  refine ⟨?_, ?_, ?_⟩
  · intro T hT hne
    exact ⟨by simp [get_missing_data_period, hT, hne], lt_add_one T⟩
  · intro hnone
    simp [get_missing_data_period, hnone]
  · intro h0
    simp [get_missing_data_period, h0]

/-- C2 witness: the amended theorem evaluated at a store holding 5. -/
theorem get_missing_data_period_spec_witness :
    get_missing_data_period c2Db5 symBTC iv1m c2Now
        = some (MissingPeriod.mk (5 + 1) c2Now) ∧ (5 : Int) < 5 + 1 :=
  (get_missing_data_period_spec c2Db5 symBTC iv1m c2Now).1 5 (by decide) (by decide)

/-- Membership in the completed/failed filter shared by both remaining
computations. -/
theorem mem_remaining_filter (l comp fail : List String) (c : String) :
    (c ∈ l.filter fun x => decide (x ∉ comp) && decide (x ∉ fail))
      ↔ (c ∈ l ∧ c ∉ comp ∧ c ∉ fail) := by
  simp [List.mem_filter, and_assoc]

/-- Membership after the in-flight re-insertion step shared by both
remaining computations. -/
theorem mem_remaining_insert (R : List String) (cc c : String) :
    (c ∈ if cc ≠ "" ∧ cc ∉ R then cc :: R else R)
      ↔ c ∈ R ∨ (cc = c ∧ c ≠ "") := by
  by_cases hif : cc ≠ "" ∧ cc ∉ R
  · rw [if_pos hif]
    simp only [List.mem_cons]
    constructor
    · rintro (rfl | h)
      · exact Or.inr ⟨rfl, hif.1⟩
      · exact Or.inl h
    · rintro (h | ⟨rfl, _⟩)
      · exact Or.inr h
      · exact Or.inl rfl
  · rw [if_neg hif]
    constructor
    · exact fun h => Or.inl h
    · rintro (h | ⟨rfl, hne⟩)
      · exact h
      · rcases not_and_or.mp hif with h1 | h2
        · exact absurd hne (by simpa using h1)
        · simpa using h2

/-- C4 counterexample: with AAA recorded as failed AND recorded as the
in-flight coin (a state a crash between persisted transitions leaves
behind), get_remaining_coins re-inserts AAA at the front, so the resumed
run processes a failed unit; the same happens for the failed in-flight
interval 1m of AAA via get_remaining_intervals. -/
theorem get_remaining_counterexample :
    get_remaining_coins c4Progress [cA, cB] = [cA, cB]
    ∧ cA ∈ c4Progress.failed_coins
    ∧ get_remaining_intervals c4Progress cA [iv1m, iv1h] = [iv1m, iv1h]
    ∧ iv1m ∈ (alGet? c4Progress.failed_intervals cA).getD [] := by decide

/-- C4 (amended): a unit is in the remaining list iff it is in
AllUnits − (Completed ∪ Failed) OR it is the truthy recorded in-flight
unit — which is re-inserted at the front even when it is recorded
completed or failed.  With no in-flight unit recorded, the remaining
list is therefore exactly AllUnits − (Completed ∪ Failed). -/
theorem get_remaining_spec (p : Progress) (all_coins : List String)
    (symbol : String) (all_intervals : List String) :
    (∀ c : String, c ∈ get_remaining_coins p all_coins ↔
      (c ∈ all_coins ∧ c ∉ p.completed_coins ∧ c ∉ p.failed_coins)
      ∨ (p.current_coin = some c ∧ c ≠ ""))
    ∧ (∀ i : String, i ∈ get_remaining_intervals p symbol all_intervals ↔
      (i ∈ all_intervals ∧ i ∉ (alGet? p.completed_intervals symbol).getD []
        ∧ i ∉ (alGet? p.failed_intervals symbol).getD [])
      ∨ (p.current_coin_progress.current_interval = some i ∧ i ≠ "")) := by
  constructor
  · intro c
    cases hcur : p.current_coin with
    | none =>
      simp only [get_remaining_coins, hcur, mem_remaining_filter]
      constructor
      · exact fun h => Or.inl h
      · rintro (h | ⟨hc, _⟩)
        · exact h
        · exact absurd hc (by simp)
    | some cc =>
      simp only [get_remaining_coins, hcur]
      rw [mem_remaining_insert, mem_remaining_filter]
      simp only [Option.some.injEq]
  · intro i
    cases hcur : p.current_coin_progress.current_interval with
    | none =>
      simp only [get_remaining_intervals, hcur, mem_remaining_filter]
      constructor
      · exact fun h => Or.inl h
      · rintro (h | ⟨hc, _⟩)
        · exact h
        · exact absurd hc (by simp)
    | some ci =>
      simp only [get_remaining_intervals, hcur]
      rw [mem_remaining_insert, mem_remaining_filter]
      simp only [Option.some.injEq]

/-- Ascending batches have their last element as a maximum. -/
theorem getLast_timestamp_max :
    ∀ {data : List Candle} {last : Candle},
      List.Pairwise (fun a b : Candle => a.timestamp ≤ b.timestamp) data →
      data.getLast? = some last →
      ∀ c ∈ data, c.timestamp ≤ last.timestamp := by
  intro data
  induction data with
  | nil => intro last _ hl; simp at hl
  | cons a as ih =>
    intro last hs hl c hc
    cases as with
    | nil =>
      have ha : a = last := by
        have : some a = some last := hl
        injection this
      rcases List.mem_cons.mp hc with rfl | h
      · exact ha ▸ le_refl _
      · simp at h
    | cons b bs =>
      have hl2 : (b :: bs).getLast? = some last := by
        rw [List.getLast?_cons_cons] at hl
        exact hl
      have hs2 := (List.pairwise_cons.mp hs).2
      have hhead := (List.pairwise_cons.mp hs).1
      rcases List.mem_cons.mp hc with rfl | h
      · exact hhead last (List.mem_of_mem_getLast? hl2)
      · exact ih hs2 hl2 c h

/-- C5 counterexample: storing the descending batch [ts 2, ts 1] sets
last_collected_timestamp to 1 — the LAST element's timestamp
(data[-1]) — while the batch's maximum timestamp is 2, so the status row
does not receive the batch maximum. -/
theorem save_status_counterexample :
    (match save_price_data_to_coin_table wDb symBTC iv1m c5Batch with
      | Except.ok d => get_last_collected_timestamp d symBTC iv1m
      | Except.error _ => none) = some 1
    ∧ (c5Batch.map Candle.timestamp).max? = some 2 := by decide

/-- C5 (amended): a successful store of a non-empty batch writes
`data[-1].timestamp` — the LAST element's timestamp, which equals the
batch maximum exactly when the batch is ascending, as the collectors'
batches are — into the (symbol, interval) status row of the same
committed state in which the batch's rows land (both updates are visible
together in the single resulting state; on error nothing is returned). -/
theorem save_status_update (db : Database) (symbol interval : String)
    (data : List Candle) (last : Candle) (db1 : Database)
    (hl : data.getLast? = some last)
    (h : save_price_data_to_coin_table db symbol interval data = Except.ok db1) :
    get_last_collected_timestamp db1 symbol interval = some last.timestamp
    ∧ (∀ c ∈ dedupLast data,
        c ∈ (alGet? db1.table_rows (symbol ++ "_" ++ interval)).getD [])
    ∧ (List.Pairwise (fun a b : Candle => a.timestamp ≤ b.timestamp) data →
        ∀ c ∈ data, c.timestamp ≤ last.timestamp) := by
  by_cases hm : (symbol ++ "_" ++ interval) ∈ db.table_names
  · rw [save_eq_of_table_mem db symbol interval data last hl hm] at h
    injection h with h
    subst h
    refine ⟨?_, ?_, fun hs => getLast_timestamp_max hs hl⟩
    · exact alGet?_alSet_self db.data_collection_status (symbol, interval)
        last.timestamp
    · intro c hc
      show c ∈ (alGet? (alSet db.table_rows (symbol ++ "_" ++ interval)
          (saveRows ((alGet? db.table_rows (symbol ++ "_" ++ interval)).getD []) data))
          (symbol ++ "_" ++ interval)).getD []
      rw [alGet?_alSet_self]
      show c ∈ saveRows ((alGet? db.table_rows (symbol ++ "_" ++ interval)).getD []) data
      rw [saveRows_eq_filter_append]
      exact List.mem_append.mpr (Or.inr hc)
  · rw [save_eq_of_table_not_mem db symbol interval data last hl hm] at h
    exact absurd h (by simp)

/-- C5 witness: the amended theorem evaluated on the concrete ascending
store of wBatch into wDb. -/
theorem save_status_update_witness :
    get_last_collected_timestamp wDb1 symBTC iv1m = some wCandle2.timestamp
    ∧ (∀ c ∈ dedupLast wBatch,
        c ∈ (alGet? wDb1.table_rows (symBTC ++ "_" ++ iv1m)).getD [])
    ∧ (List.Pairwise (fun a b : Candle => a.timestamp ≤ b.timestamp) wBatch →
        ∀ c ∈ wBatch, c.timestamp ≤ wCandle2.timestamp) :=
  save_status_update wDb symBTC iv1m wBatch wCandle2 wDb1 (by decide) (by decide)

/-- The gap top-up function can never reach the network or change the
database: past its fixed sub-minute guard, collect_missing_data invokes
self.get_historical_data_batch, which does not exist on
HistoricalDataCollector, so AttributeError is raised and swallowed
before any request. -/
theorem collect_missing_data_eq (db : Database) (symbol interval : String)
    (now : Int) :
    collect_missing_data db symbol interval now = ([], [], db) := by
  unfold collect_missing_data
  cases get_missing_data_period db symbol interval now with
  | none => rfl
  | some mp => by_cases h : mp.end_time - mp.start_time < 60000 <;> simp [h]

/-- C7: the gap top-up path issues zero API calls (an empty event trace)
and leaves the database untouched whenever the missing range
[T + 1, now] is shorter than one resolution bucket of the interval
(bucket = _calculate_batch_size / 1000); in particular a unit re-run
immediately after completion issues zero fetcher calls.  The property
holds vacuously: collect_missing_data never issues a call for any gap,
because its fetch step calls a method HistoricalDataCollector does not
have (see collect_missing_data_eq). -/
theorem collect_missing_data_no_fetch (db : Database)
    (symbol interval : String) (now T : Int)
    (hT : get_last_collected_timestamp db symbol interval = some T)
    (hshort : now - (T + 1) < calculate_batch_size interval / 1000) :
    (collect_missing_data db symbol interval now).1 = []
    ∧ (collect_missing_data db symbol interval now).2.2 = db := by
  rw [collect_missing_data_eq]
  exact ⟨rfl, rfl⟩

/-- C7 witness: a unit whose checkpoint is 5 ms, re-run 30 s later
(a gap below one 1m bucket), performs no call and no write. -/
theorem collect_missing_data_no_fetch_witness :
    (collect_missing_data c2Db5 symBTC iv1m 30000).1 = []
    ∧ (collect_missing_data c2Db5 symBTC iv1m 30000).2.2 = c2Db5 :=
  collect_missing_data_no_fetch c2Db5 symBTC iv1m 30000 5 (by decide) (by decide)

set_option maxRecDepth 40000 in
/-- Kernel-checked over the concrete 750-name list: no coin's
{coin}_1M table name is among the tables init_database creates (it
creates {coin}_1month instead). -/
theorem monthly_table_not_created :
    ∀ s ∈ coins, (s ++ "_" ++ iv1M) ∉ init_table_names := by decide

/-- C9: for every coin of the 50-coin universe, storing any non-empty
batch under the collectors' monthly interval string 1M raises:
init_database created only the {coin}_1month table, never {coin}_1M, so
save_price_data_to_coin_table addresses a missing table and the INSERT
fails, meaning monthly candles can never be persisted through this
path. -/
theorem save_monthly_interval_errors (symbol : String) (hs : symbol ∈ coins)
    (data : List Candle) (hd : data ≠ []) :
    save_price_data_to_coin_table init_database symbol iv1M data
      = Except.error (symbol ++ "_" ++ iv1M) := by
  cases hl : data.getLast? with
  | none => exact absurd (List.getLast?_eq_none_iff.mp hl) hd
  | some last =>
    exact save_eq_of_table_not_mem init_database symbol iv1M data last hl
      (monthly_table_not_created symbol hs)

/-- C9 witness: storing one candle for BTCUSDT under 1M errors. -/
theorem save_monthly_interval_errors_witness :
    symBTC ∈ coins
    ∧ save_price_data_to_coin_table init_database symBTC iv1M [wCandle]
        = Except.error (symBTC ++ "_" ++ iv1M) :=
  ⟨by decide, save_monthly_interval_errors symBTC (by decide) [wCandle] (by decide)⟩

/-- C10 counterexample: when no checkpoint file exists, the --status
path is not free of side effects: constructing the ProgressTracker runs
load_progress, which persists a fresh default document, so the persisted
contents before (no file) and after (default document) differ. -/
theorem status_operation_counterexample :
    (status_operation t0 none).2 = some (default_progress t0)
    ∧ some (default_progress t0) ≠ (none : Option Progress) := by decide

/-- C10 (amended): when a checkpoint file exists, the status operation
reports the summary and leaves the persisted contents identical; when no
file exists yet, the operation first creates the default checkpoint file
as a side effect of loading, and only reports after that. -/
theorem status_operation_spec (now : String) (p : Progress) :
    (status_operation now (some p)).2 = some p
    ∧ (status_operation now none).2 = some (default_progress now) :=
  ⟨rfl, rfl⟩

theorem callsOf_nil : callsOf [] = [] := rfl

theorem callsOf_cons_call (r : Req) (resp : Except Unit (List Kline))
    (evs : List Event) :
    callsOf (Event.call r resp :: evs) = (r, resp) :: callsOf evs := by
  simp [callsOf]

theorem callsOf_cons_sleep (ms : Nat) (evs : List Event) :
    callsOf (Event.sleepPause ms :: evs) = callsOf evs := by
  simp [callsOf]

theorem callsOf_cons_rateLimit (ms : Nat) (evs : List Event) :
    callsOf (Event.rateLimitWait ms :: evs) = callsOf evs := by
  simp [callsOf]

theorem prependData_fuelOut_iff (d : List Kline) (r : FetchResult) :
    prependData d r = FetchResult.fuelOut ↔ r = FetchResult.fuelOut := by
  cases r <;> simp [prependData]

theorem ghd_go_zero (api : Req → Except Unit (List Kline)) (e cur : Int) :
    ghd_go api e 0 cur
      = if cur < e then ([], FetchResult.fuelOut)
        else ([], FetchResult.frame []) := rfl

theorem ghd_go_not_lt (api : Req → Except Unit (List Kline)) (e : Int)
    (f : Nat) (cur : Int) (hlt : ¬ cur < e) :
    ghd_go api e (f + 1) cur = ([], FetchResult.frame []) := by
  rw [ghd_go, if_neg hlt]

theorem ghd_go_error (api : Req → Except Unit (List Kline)) (e : Int)
    (f : Nat) (cur : Int) (hlt : cur < e)
    (hapi : api (Req.mk cur e 1000) = Except.error ()) :
    ghd_go api e (f + 1) cur
      = ([Event.call (Req.mk cur e 1000) (Except.error ())],
          FetchResult.exceptionEmpty) := by
  rw [ghd_go, if_pos hlt, hapi]

theorem ghd_go_empty (api : Req → Except Unit (List Kline)) (e : Int)
    (f : Nat) (cur : Int) (hlt : cur < e)
    (hapi : api (Req.mk cur e 1000) = Except.ok []) :
    ghd_go api e (f + 1) cur
      = ([Event.call (Req.mk cur e 1000) (Except.ok [])],
          FetchResult.frame []) := by
  rw [ghd_go, if_pos hlt, hapi]

theorem ghd_go_data (api : Req → Except Unit (List Kline)) (e : Int)
    (f : Nat) (cur : Int) (k : Kline) (ks : List Kline) (hlt : cur < e)
    (hapi : api (Req.mk cur e 1000) = Except.ok (k :: ks)) :
    ghd_go api e (f + 1) cur
      = (Event.call (Req.mk cur e 1000) (Except.ok (k :: ks)) ::
          Event.sleepPause 100 ::
          (ghd_go api e f ((ks.getLastD k).close_time + 1)).1,
        prependData (k :: ks)
          (ghd_go api e f ((ks.getLastD k).close_time + 1)).2) := by
  rw [ghd_go, if_pos hlt, hapi]

theorem ghdb_go_zero (api : Req → Except Unit (List Kline))
    (interval : String) (e cur : Int) :
    ghdb_go api interval e 0 cur
      = if cur < e then ([], BatchAcc.fuelOut)
        else ([], BatchAcc.windows []) := rfl

theorem ghdb_go_not_lt (api : Req → Except Unit (List Kline))
    (interval : String) (e : Int) (f : Nat) (cur : Int) (hlt : ¬ cur < e) :
    ghdb_go api interval e (f + 1) cur = ([], BatchAcc.windows []) := by
  rw [ghdb_go, if_neg hlt]

theorem ghdb_go_error (api : Req → Except Unit (List Kline))
    (interval : String) (e : Int) (f : Nat) (cur : Int) (hlt : cur < e)
    (hapi : api (Req.mk cur (min (cur + calculate_batch_size interval) e) 1000)
      = Except.error ()) :
    ghdb_go api interval e (f + 1) cur
      = (Event.call
            (Req.mk cur (min (cur + calculate_batch_size interval) e) 1000)
            (Except.error ()) ::
          (ghdb_go api interval e f
            (min (cur + calculate_batch_size interval) e)).1,
        (ghdb_go api interval e f
          (min (cur + calculate_batch_size interval) e)).2) := by
  rw [ghdb_go, if_pos hlt, hapi]

theorem ghdb_go_empty (api : Req → Except Unit (List Kline))
    (interval : String) (e : Int) (f : Nat) (cur : Int) (hlt : cur < e)
    (hapi : api (Req.mk cur (min (cur + calculate_batch_size interval) e) 1000)
      = Except.ok []) :
    ghdb_go api interval e (f + 1) cur
      = (Event.call
            (Req.mk cur (min (cur + calculate_batch_size interval) e) 1000)
            (Except.ok []) ::
          Event.sleepPause 50 ::
          (ghdb_go api interval e f
            (min (cur + calculate_batch_size interval) e)).1,
        (ghdb_go api interval e f
          (min (cur + calculate_batch_size interval) e)).2) := by
  rw [ghdb_go, if_pos hlt, hapi]

theorem ghdb_go_data (api : Req → Except Unit (List Kline))
    (interval : String) (e : Int) (f : Nat) (cur : Int) (k : Kline)
    (ks : List Kline) (hlt : cur < e)
    (hapi : api (Req.mk cur (min (cur + calculate_batch_size interval) e) 1000)
      = Except.ok (k :: ks)) :
    ghdb_go api interval e (f + 1) cur
      = (Event.call
            (Req.mk cur (min (cur + calculate_batch_size interval) e) 1000)
            (Except.ok (k :: ks)) ::
          Event.sleepPause 50 ::
          (ghdb_go api interval e f ((ks.getLastD k).openTime + 1)).1,
        prependWindow (k :: ks)
          (ghdb_go api interval e f ((ks.getLastD k).openTime + 1)).2) := by
  rw [ghdb_go, if_pos hlt, hapi]

theorem ghda_go_zero (api : Req → Except Unit (List Kline)) (e cur : Int)
    (cnt : Nat) :
    ghda_go api e 0 cur cnt
      = if cur < e then ([], FetchResult.fuelOut)
        else ([], FetchResult.frame []) := rfl

theorem ghda_go_not_lt (api : Req → Except Unit (List Kline)) (e : Int)
    (f : Nat) (cur : Int) (cnt : Nat) (hlt : ¬ cur < e) :
    ghda_go api e (f + 1) cur cnt = ([], FetchResult.frame []) := by
  rw [ghda_go, if_neg hlt]

theorem ghda_go_error (api : Req → Except Unit (List Kline)) (e : Int)
    (f : Nat) (cur : Int) (cnt : Nat) (hlt : cur < e)
    (hapi : api (Req.mk cur e 1000) = Except.error ()) :
    ghda_go api e (f + 1) cur cnt
      = ([Event.rateLimitWait (rate_limit_step cnt).2,
          Event.call (Req.mk cur e 1000) (Except.error ())],
        FetchResult.frame []) := by
  rw [ghda_go, if_pos hlt, hapi]

theorem ghda_go_empty (api : Req → Except Unit (List Kline)) (e : Int)
    (f : Nat) (cur : Int) (cnt : Nat) (hlt : cur < e)
    (hapi : api (Req.mk cur e 1000) = Except.ok []) :
    ghda_go api e (f + 1) cur cnt
      = ([Event.rateLimitWait (rate_limit_step cnt).2,
          Event.call (Req.mk cur e 1000) (Except.ok [])],
        FetchResult.frame []) := by
  rw [ghda_go, if_pos hlt, hapi]

theorem ghda_go_data (api : Req → Except Unit (List Kline)) (e : Int)
    (f : Nat) (cur : Int) (cnt : Nat) (k : Kline) (ks : List Kline)
    (hlt : cur < e) (hapi : api (Req.mk cur e 1000) = Except.ok (k :: ks)) :
    ghda_go api e (f + 1) cur cnt
      = (Event.rateLimitWait (rate_limit_step cnt).2 ::
          Event.call (Req.mk cur e 1000) (Except.ok (k :: ks)) ::
          (ghda_go api e f ((ks.getLastD k).close_time + 1)
            (rate_limit_step cnt).1).1,
        prependData (k :: ks)
          (ghda_go api e f ((ks.getLastD k).close_time + 1)
            (rate_limit_step cnt).1).2) := by
  rw [ghda_go, if_pos hlt, hapi]

/-- Every request the sequential loop issues carries limit 1000, a
cursor still below end_time, and end_time itself as its endTime. -/
theorem ghd_go_calls_shape (api : Req → Except Unit (List Kline)) (e : Int) :
    ∀ (fuel : Nat) (cur : Int),
      ∀ p ∈ callsOf (ghd_go api e fuel cur).1,
        p.1.limit = 1000 ∧ p.1.startTime < e ∧ p.1.endTime = e := by
  intro fuel
  induction fuel with
  | zero =>
    intro cur p hp
    rw [ghd_go_zero] at hp
    by_cases hlt : cur < e <;> simp [hlt, callsOf] at hp
  | succ f ih =>
    intro cur p hp
    by_cases hlt : cur < e
    · cases hapi : api (Req.mk cur e 1000) with
      | error u =>
        cases u
        rw [ghd_go_error api e f cur hlt hapi, callsOf_cons_call, callsOf_nil] at hp
        have hp2 := List.mem_singleton.mp hp
        subst hp2
        exact ⟨rfl, hlt, rfl⟩
      | ok data =>
        cases data with
        | nil =>
          rw [ghd_go_empty api e f cur hlt hapi, callsOf_cons_call, callsOf_nil] at hp
          have hp2 := List.mem_singleton.mp hp
          subst hp2
          exact ⟨rfl, hlt, rfl⟩
        | cons k ks =>
          rw [ghd_go_data api e f cur k ks hlt hapi, callsOf_cons_call,
            callsOf_cons_sleep] at hp
          rcases List.mem_cons.mp hp with hp2 | hmem
          · subst hp2
            exact ⟨rfl, hlt, rfl⟩
          · exact ih _ p hmem
    · rw [ghd_go_not_lt api e f cur hlt] at hp
      simp [callsOf] at hp

/-- The first request of a sequential run starts at the entry cursor. -/
theorem ghd_go_first_call_start (api : Req → Except Unit (List Kline))
    (e : Int) :
    ∀ (fuel : Nat) (cur : Int) (q : Req × Except Unit (List Kline)),
      (callsOf (ghd_go api e fuel cur).1).head? = some q →
      q.1.startTime = cur := by
  intro fuel
  cases fuel with
  | zero =>
    intro cur q hq
    rw [ghd_go_zero] at hq
    by_cases hlt : cur < e <;> simp [hlt, callsOf] at hq
  | succ f =>
    intro cur q hq
    by_cases hlt : cur < e
    · cases hapi : api (Req.mk cur e 1000) with
      | error u =>
        cases u
        rw [ghd_go_error api e f cur hlt hapi, callsOf_cons_call,
          List.head?_cons] at hq
        cases hq
        rfl
      | ok data =>
        cases data with
        | nil =>
          rw [ghd_go_empty api e f cur hlt hapi, callsOf_cons_call,
            List.head?_cons] at hq
          cases hq
          rfl
        | cons k ks =>
          rw [ghd_go_data api e f cur k ks hlt hapi, callsOf_cons_call,
            List.head?_cons] at hq
          cases hq
          rfl
    · rw [ghd_go_not_lt api e f cur hlt] at hq
      simp [callsOf] at hq

/-- Consecutive sequential requests: the earlier one returned data and
the later one starts at the last returned candle's close time + 1. -/
theorem ghd_go_chain (api : Req → Except Unit (List Kline)) (e : Int) :
    ∀ (fuel : Nat) (cur : Int),
      List.Chain' (fun a b => ∃ k ks, a.2 = Except.ok (k :: ks)
          ∧ b.1.startTime = (ks.getLastD k).close_time + 1)
        (callsOf (ghd_go api e fuel cur).1) := by
  intro fuel
  induction fuel with
  | zero =>
    intro cur
    rw [ghd_go_zero]
    by_cases hlt : cur < e <;> simp [hlt, callsOf]
  | succ f ih =>
    intro cur
    by_cases hlt : cur < e
    · cases hapi : api (Req.mk cur e 1000) with
      | error u =>
        cases u
        rw [ghd_go_error api e f cur hlt hapi, callsOf_cons_call, callsOf_nil]
        simp
      | ok data =>
        cases data with
        | nil =>
          rw [ghd_go_empty api e f cur hlt hapi, callsOf_cons_call, callsOf_nil]
          simp
        | cons k ks =>
          rw [ghd_go_data api e f cur k ks hlt hapi, callsOf_cons_call,
            callsOf_cons_sleep]
          rw [List.chain'_cons']
          refine ⟨?_, ih _⟩
          intro b hb
          exact ⟨k, ks, rfl,
            ghd_go_first_call_start api e f ((ks.getLastD k).close_time + 1) b
              (Option.mem_def.mp hb)⟩
    · rw [ghd_go_not_lt api e f cur hlt]
      simp [callsOf]

/-- A sequential run that did not run out of fuel made no request only
when entered with an exhausted range, and its last request is the one
that stopped it: an HTTP error, an empty response, or data whose
successor cursor reaches the range end. -/
theorem ghd_go_termination (api : Req → Except Unit (List Kline)) (e : Int) :
    ∀ (fuel : Nat) (cur : Int),
      (ghd_go api e fuel cur).2 ≠ FetchResult.fuelOut →
      (callsOf (ghd_go api e fuel cur).1 = [] → ¬ cur < e)
      ∧ (∀ q, (callsOf (ghd_go api e fuel cur).1).getLast? = some q →
          q.2 = Except.error () ∨ q.2 = Except.ok []
          ∨ ∃ k ks, q.2 = Except.ok (k :: ks)
              ∧ ¬ ((ks.getLastD k).close_time + 1 < e)) := by
  intro fuel
  induction fuel with
  | zero =>
    intro cur hnf
    rw [ghd_go_zero] at hnf ⊢
    by_cases hlt : cur < e
    · rw [if_pos hlt] at hnf
      exact absurd rfl hnf
    · rw [if_neg hlt]
      refine ⟨fun _ => hlt, fun q hq => ?_⟩
      rw [callsOf_nil] at hq
      exact absurd hq (by simp)
  | succ f ih =>
    intro cur hnf
    by_cases hlt : cur < e
    · cases hapi : api (Req.mk cur e 1000) with
      | error u =>
        cases u
        rw [ghd_go_error api e f cur hlt hapi]
        refine ⟨fun hc => ?_, fun q hq => ?_⟩
        · rw [callsOf_cons_call] at hc
          exact absurd hc (by simp)
        · rw [callsOf_cons_call, callsOf_nil, List.getLast?_singleton] at hq
          cases hq
          exact Or.inl rfl
      | ok data =>
        cases data with
        | nil =>
          rw [ghd_go_empty api e f cur hlt hapi]
          refine ⟨fun hc => ?_, fun q hq => ?_⟩
          · rw [callsOf_cons_call] at hc
            exact absurd hc (by simp)
          · rw [callsOf_cons_call, callsOf_nil, List.getLast?_singleton] at hq
            cases hq
            exact Or.inr (Or.inl rfl)
        | cons k ks =>
          rw [ghd_go_data api e f cur k ks hlt hapi] at hnf ⊢
          have hnf2 : (ghd_go api e f ((ks.getLastD k).close_time + 1)).2
              ≠ FetchResult.fuelOut := by
            intro hcon
            apply hnf
            show prependData (k :: ks)
                (ghd_go api e f ((ks.getLastD k).close_time + 1)).2
              = FetchResult.fuelOut
            rw [hcon]
            rfl
          have ihh := ih ((ks.getLastD k).close_time + 1) hnf2
          refine ⟨fun hc => ?_, fun q hq => ?_⟩
          · rw [callsOf_cons_call] at hc
            exact absurd hc (by simp)
          · rw [callsOf_cons_call, callsOf_cons_sleep] at hq
            cases hcr : callsOf (ghd_go api e f ((ks.getLastD k).close_time + 1)).1 with
            | nil =>
              rw [hcr, List.getLast?_singleton] at hq
              cases hq
              exact Or.inr (Or.inr ⟨k, ks, rfl, ihh.1 hcr⟩)
            | cons x xs =>
              rw [hcr, List.getLast?_cons_cons] at hq
              exact ihh.2 q (by rw [hcr]; exact hq)
    · rw [ghd_go_not_lt api e f cur hlt]
      refine ⟨fun _ => hlt, fun q hq => ?_⟩
      rw [callsOf_nil] at hq
      exact absurd hq (by simp)

/-- Every request the batch loop issues carries limit 1000, a cursor
still below end_time, and as endTime the window bound
min(cursor + batch width, end_time). -/
theorem ghdb_go_calls_shape (api : Req → Except Unit (List Kline))
    (interval : String) (e : Int) :
    ∀ (fuel : Nat) (cur : Int),
      ∀ p ∈ callsOf (ghdb_go api interval e fuel cur).1,
        p.1.limit = 1000 ∧ p.1.startTime < e
        ∧ p.1.endTime = min (p.1.startTime + calculate_batch_size interval) e := by
  intro fuel
  induction fuel with
  | zero =>
    intro cur p hp
    rw [ghdb_go_zero] at hp
    by_cases hlt : cur < e <;> simp [hlt, callsOf] at hp
  | succ f ih =>
    intro cur p hp
    by_cases hlt : cur < e
    · cases hapi : api (Req.mk cur
          (min (cur + calculate_batch_size interval) e) 1000) with
      | error u =>
        cases u
        rw [ghdb_go_error api interval e f cur hlt hapi, callsOf_cons_call] at hp
        rcases List.mem_cons.mp hp with hp2 | hmem
        · subst hp2
          exact ⟨rfl, hlt, rfl⟩
        · exact ih _ p hmem
      | ok data =>
        cases data with
        | nil =>
          rw [ghdb_go_empty api interval e f cur hlt hapi, callsOf_cons_call,
            callsOf_cons_sleep] at hp
          rcases List.mem_cons.mp hp with hp2 | hmem
          · subst hp2
            exact ⟨rfl, hlt, rfl⟩
          · exact ih _ p hmem
        | cons k ks =>
          rw [ghdb_go_data api interval e f cur k ks hlt hapi, callsOf_cons_call,
            callsOf_cons_sleep] at hp
          rcases List.mem_cons.mp hp with hp2 | hmem
          · subst hp2
            exact ⟨rfl, hlt, rfl⟩
          · exact ih _ p hmem
    · rw [ghdb_go_not_lt api interval e f cur hlt] at hp
      simp [callsOf] at hp

/-- The first request of a batch run starts at the entry cursor. -/
theorem ghdb_go_first_call_start (api : Req → Except Unit (List Kline))
    (interval : String) (e : Int) :
    ∀ (fuel : Nat) (cur : Int) (q : Req × Except Unit (List Kline)),
      (callsOf (ghdb_go api interval e fuel cur).1).head? = some q →
      q.1.startTime = cur := by
  intro fuel
  induction fuel with
  | zero =>
    intro cur q hq
    rw [ghdb_go_zero] at hq
    by_cases hlt : cur < e <;> simp [hlt, callsOf] at hq
  | succ f ih =>
    intro cur q hq
    by_cases hlt : cur < e
    · cases hapi : api (Req.mk cur
          (min (cur + calculate_batch_size interval) e) 1000) with
      | error u =>
        cases u
        rw [ghdb_go_error api interval e f cur hlt hapi, callsOf_cons_call,
          List.head?_cons] at hq
        cases hq
        rfl
      | ok data =>
        cases data with
        | nil =>
          rw [ghdb_go_empty api interval e f cur hlt hapi, callsOf_cons_call,
            List.head?_cons] at hq
          cases hq
          rfl
        | cons k ks =>
          rw [ghdb_go_data api interval e f cur k ks hlt hapi, callsOf_cons_call,
            List.head?_cons] at hq
          cases hq
          rfl
    · rw [ghdb_go_not_lt api interval e f cur hlt] at hq
      simp [callsOf] at hq

/-- Consecutive batch requests: either the earlier one returned data and
the later one starts at the last candle's OPEN time + 1, or the earlier
one failed or came back empty and the later one starts at the earlier
window's end. -/
theorem ghdb_go_chain (api : Req → Except Unit (List Kline))
    (interval : String) (e : Int) :
    ∀ (fuel : Nat) (cur : Int),
      List.Chain' (fun a b =>
          (∃ k ks, a.2 = Except.ok (k :: ks)
            ∧ b.1.startTime = (ks.getLastD k).openTime + 1)
          ∨ ((a.2 = Except.error () ∨ a.2 = Except.ok [])
            ∧ b.1.startTime = a.1.endTime))
        (callsOf (ghdb_go api interval e fuel cur).1) := by
  intro fuel
  induction fuel with
  | zero =>
    intro cur
    rw [ghdb_go_zero]
    by_cases hlt : cur < e <;> simp [hlt, callsOf]
  | succ f ih =>
    intro cur
    by_cases hlt : cur < e
    · cases hapi : api (Req.mk cur
          (min (cur + calculate_batch_size interval) e) 1000) with
      | error u =>
        cases u
        rw [ghdb_go_error api interval e f cur hlt hapi, callsOf_cons_call]
        rw [List.chain'_cons']
        refine ⟨?_, ih _⟩
        intro b hb
        exact Or.inr ⟨Or.inl rfl,
          ghdb_go_first_call_start api interval e f
            (min (cur + calculate_batch_size interval) e) b (Option.mem_def.mp hb)⟩
      | ok data =>
        cases data with
        | nil =>
          rw [ghdb_go_empty api interval e f cur hlt hapi, callsOf_cons_call,
            callsOf_cons_sleep]
          rw [List.chain'_cons']
          refine ⟨?_, ih _⟩
          intro b hb
          exact Or.inr ⟨Or.inr rfl,
            ghdb_go_first_call_start api interval e f
              (min (cur + calculate_batch_size interval) e) b (Option.mem_def.mp hb)⟩
        | cons k ks =>
          rw [ghdb_go_data api interval e f cur k ks hlt hapi, callsOf_cons_call,
            callsOf_cons_sleep]
          rw [List.chain'_cons']
          refine ⟨?_, ih _⟩
          intro b hb
          exact Or.inl ⟨k, ks, rfl,
            ghdb_go_first_call_start api interval e f
              ((ks.getLastD k).openTime + 1) b (Option.mem_def.mp hb)⟩
    · rw [ghdb_go_not_lt api interval e f cur hlt]
      simp [callsOf]

/-- A batch iteration entered with a non-exhausted range always issues
at least one request, whatever the oracle answers. -/
theorem ghdb_go_calls_pos (api : Req → Except Unit (List Kline))
    (interval : String) (e : Int) (f : Nat) (cur : Int) (hlt : cur < e) :
    1 ≤ (callsOf (ghdb_go api interval e (f + 1) cur).1).length := by
  cases hapi : api (Req.mk cur
      (min (cur + calculate_batch_size interval) e) 1000) with
  | error u =>
    cases u
    rw [ghdb_go_error api interval e f cur hlt hapi, callsOf_cons_call]
    simp
  | ok data =>
    cases data with
    | nil =>
      rw [ghdb_go_empty api interval e f cur hlt hapi, callsOf_cons_call]
      simp
    | cons k ks =>
      rw [ghdb_go_data api interval e f cur k ks hlt hapi, callsOf_cons_call]
      simp

/-- The batch loop never passes through the rate limiter: its trace
carries API calls and plain 50 ms pacing sleeps only. -/
theorem ghdb_go_no_rateLimit (api : Req → Except Unit (List Kline))
    (interval : String) (e : Int) :
    ∀ (fuel : Nat) (cur : Int),
      ((ghdb_go api interval e fuel cur).1.all fun ev => !isRateLimitEv ev)
        = true := by
  intro fuel
  induction fuel with
  | zero =>
    intro cur
    rw [ghdb_go_zero]
    by_cases hlt : cur < e <;> simp [hlt]
  | succ f ih =>
    intro cur
    by_cases hlt : cur < e
    · cases hapi : api (Req.mk cur
          (min (cur + calculate_batch_size interval) e) 1000) with
      | error u =>
        cases u
        rw [ghdb_go_error api interval e f cur hlt hapi]
        simp only [List.all_cons, isRateLimitEv, Bool.not_false, Bool.true_and]
        exact ih _
      | ok data =>
        cases data with
        | nil =>
          rw [ghdb_go_empty api interval e f cur hlt hapi]
          simp only [List.all_cons, isRateLimitEv, Bool.not_false, Bool.true_and]
          exact ih _
        | cons k ks =>
          rw [ghdb_go_data api interval e f cur k ks hlt hapi]
          simp only [List.all_cons, isRateLimitEv, Bool.not_false, Bool.true_and]
          exact ih _
    · rw [ghdb_go_not_lt api interval e f cur hlt]
      simp

/-- In the async loop's trace every API request is immediately preceded
by a pass through _rate_limit. -/
theorem ghda_go_rateLimited (api : Req → Except Unit (List Kline)) (e : Int) :
    ∀ (fuel : Nat) (cur : Int) (cnt : Nat),
      rateLimitedTrace (ghda_go api e fuel cur cnt).1 = true := by
  intro fuel
  induction fuel with
  | zero =>
    intro cur cnt
    rw [ghda_go_zero]
    by_cases hlt : cur < e <;> simp [hlt, rateLimitedTrace]
  | succ f ih =>
    intro cur cnt
    by_cases hlt : cur < e
    · cases hapi : api (Req.mk cur e 1000) with
      | error u =>
        cases u
        rw [ghda_go_error api e f cur cnt hlt hapi]
        simp [rateLimitedTrace]
      | ok data =>
        cases data with
        | nil =>
          rw [ghda_go_empty api e f cur cnt hlt hapi]
          simp [rateLimitedTrace]
        | cons k ks =>
          rw [ghda_go_data api e f cur cnt k ks hlt hapi]
          simp [rateLimitedTrace, ih _]
    · rw [ghda_go_not_lt api e f cur cnt hlt]
      simp [rateLimitedTrace]

/-- The events the batch wrapper hands back are exactly those of its
window loop (the post-processing of collected rows adds none). -/
theorem get_historical_data_batch_events (api : Req → Except Unit (List Kline))
    (interval : String) (s e : Int) (fuel : Nat) :
    (get_historical_data_batch api interval s e fuel).1
      = (ghdb_go api interval e fuel s).1 := by
  unfold get_historical_data_batch
  cases h : (ghdb_go api interval e fuel s).2 with
  | windows ws => cases ws <;> simp [h]
  | fuelOut => simp [h]

/-- The batch wrapper never takes the exception path: per-window errors
are swallowed inside the loop, so the caller always receives a frame
(or the model's fuel marker). -/
theorem get_historical_data_batch_ne_exception
    (api : Req → Except Unit (List Kline)) (interval : String) (s e : Int)
    (fuel : Nat) :
    (get_historical_data_batch api interval s e fuel).2
      ≠ FetchResult.exceptionEmpty := by
  unfold get_historical_data_batch
  cases h : (ghdb_go api interval e fuel s).2 with
  | windows ws => cases ws <;> simp [h]
  | fuelOut => simp [h]

/-- C3 counterexample: the batch implementation does not stop when a
response is empty: with every response empty, a 1m run spanning two
window widths issues a second request after the first empty response
(and neither request uses closeTime-based cursoring). -/
theorem pagination_counterexample :
    callsOf (get_historical_data_batch apiEmpty iv1m 0 120000000 5).1
      = [(Req.mk 0 60000000 1000, Except.ok []),
         (Req.mk 60000000 120000000 1000, Except.ok [])] := by decide

/-- C3 (amended): both fetch loops request at most 1000 records per call
and only issue requests whose cursor is below the range end.  The
SEQUENTIAL loop requests [cursor, end]; consecutive requests follow a
non-empty response whose last candle's closeTime + 1 becomes the next
cursor; and, fuel permitting, it stops exactly when a response errors,
comes back empty, or the successor cursor reaches the end.  The BATCH
loop requests windows [cursor, min(cursor + batch width, end)]; on a
non-empty response the next cursor is the last candle's OPEN time + 1
(not closeTime + 1), and on an empty or failed response the next cursor
is the window end — it continues rather than stopping. -/
theorem pagination_spec (api : Req → Except Unit (List Kline))
    (interval : String) (start_time end_time : Int) (fuel : Nat) :
    (∀ p ∈ callsOf (get_historical_data api start_time end_time fuel).1,
        p.1.limit = 1000 ∧ p.1.startTime < end_time ∧ p.1.endTime = end_time)
    ∧ List.Chain' (fun a b => ∃ k ks, a.2 = Except.ok (k :: ks)
          ∧ b.1.startTime = (ks.getLastD k).close_time + 1)
        (callsOf (get_historical_data api start_time end_time fuel).1)
    ∧ ((get_historical_data api start_time end_time fuel).2
          ≠ FetchResult.fuelOut →
        (callsOf (get_historical_data api start_time end_time fuel).1 = [] →
          ¬ start_time < end_time)
        ∧ (∀ q, (callsOf (get_historical_data api start_time end_time fuel).1).getLast?
              = some q →
            q.2 = Except.error () ∨ q.2 = Except.ok []
            ∨ ∃ k ks, q.2 = Except.ok (k :: ks)
                ∧ ¬ ((ks.getLastD k).close_time + 1 < end_time)))
    ∧ (∀ p ∈ callsOf (get_historical_data_batch api interval start_time end_time fuel).1,
        p.1.limit = 1000 ∧ p.1.startTime < end_time
        ∧ p.1.endTime = min (p.1.startTime + calculate_batch_size interval) end_time)
    ∧ List.Chain' (fun a b =>
          (∃ k ks, a.2 = Except.ok (k :: ks)
            ∧ b.1.startTime = (ks.getLastD k).openTime + 1)
          ∨ ((a.2 = Except.error () ∨ a.2 = Except.ok [])
            ∧ b.1.startTime = a.1.endTime))
        (callsOf (get_historical_data_batch api interval start_time end_time fuel).1) := by
  refine ⟨ghd_go_calls_shape api end_time fuel start_time,
    ghd_go_chain api end_time fuel start_time,
    ghd_go_termination api end_time fuel start_time, ?_, ?_⟩
  · rw [get_historical_data_batch_events]
    exact ghdb_go_calls_shape api interval end_time fuel start_time
  · rw [get_historical_data_batch_events]
    exact ghdb_go_chain api interval end_time fuel start_time

/-- C3 witness: the amended pagination theorem evaluated on a concrete
one-call sequential run (the request shape and the stopping condition
instantiated at its only call). -/
theorem pagination_spec_witness :
    (wPair.1.limit = 1000 ∧ wPair.1.startTime < 100 ∧ wPair.1.endTime = 100)
    ∧ (wPair.2 = Except.error () ∨ wPair.2 = Except.ok []
      ∨ ∃ k ks, wPair.2 = Except.ok (k :: ks)
          ∧ ¬ ((ks.getLastD k).close_time + 1 < 100)) :=
  ⟨(pagination_spec apiEmpty iv1m 0 100 3).1 wPair (by decide),
   ((pagination_spec apiEmpty iv1m 0 100 3).2.2.1 (by decide)).2
      wPair (by decide)⟩

/-- C6 counterexample: a transport failure is neither retried nor
surfaced.  The sequential fetcher issues exactly one request — not three
attempts — and returns an empty DataFrame through its except path,
indistinguishable from no data; the batch fetcher, its first window
failing, skips the window and hands back the later windows' partial data
with no error. -/
theorem fetch_failure_counterexample :
    (callsOf (get_historical_data apiFail 0 1000000 5).1).length = 1
    ∧ (get_historical_data apiFail 0 1000000 5).2 = FetchResult.exceptionEmpty
    ∧ resultFrame (get_historical_data apiFail 0 1000000 5).2 = []
    ∧ (get_historical_data_batch apiFailThenData iv1m 0 120000000 5).2
        = FetchResult.frame [kline2]
    ∧ (callsOf (get_historical_data_batch apiFailThenData iv1m 0 120000000 5).1).length
        = 3 := by decide

/-- C6 (amended): no fetch loop retries a failed request or surfaces the
error.  When its current request fails, the sequential loop returns at
once: that request is its only (remaining) call and the caller receives
an empty DataFrame, all earlier pages discarded.  The batch loop never
even takes an exception path: a failed window is skipped and, when the
range is not yet exhausted, the loop issues the next window's request. -/
theorem fetch_no_retry (api : Req → Except Unit (List Kline))
    (interval : String) (start_time end_time : Int) (fuel : Nat) :
    (∀ f : Nat, fuel = f + 1 → start_time < end_time →
      api (Req.mk start_time end_time 1000) = Except.error () →
      get_historical_data api start_time end_time fuel
        = ([Event.call (Req.mk start_time end_time 1000) (Except.error ())],
            FetchResult.exceptionEmpty))
    ∧ ((get_historical_data_batch api interval start_time end_time fuel).2
        ≠ FetchResult.exceptionEmpty)
    ∧ (∀ f : Nat, fuel = f + 2 → start_time < end_time →
      api (Req.mk start_time
          (min (start_time + calculate_batch_size interval) end_time) 1000)
        = Except.error () →
      min (start_time + calculate_batch_size interval) end_time < end_time →
      2 ≤ (callsOf (get_historical_data_batch api interval start_time end_time fuel).1).length) := by
  refine ⟨?_, get_historical_data_batch_ne_exception api interval
    start_time end_time fuel, ?_⟩
  · intro f hf hlt hapi
    subst hf
    exact ghd_go_error api end_time f start_time hlt hapi
  · intro f hf hlt hapi hmin
    subst hf
    rw [get_historical_data_batch_events]
    rw [ghdb_go_error api interval end_time (f + 1) start_time hlt hapi]
    rw [callsOf_cons_call]
    rw [List.length_cons]
    exact Nat.succ_le_succ (ghdb_go_calls_pos api interval end_time f
      (min (start_time + calculate_batch_size interval) end_time) hmin)

/-- C6 witness: the amended theorem evaluated on a failing sequential
run (one call, empty frame) and on a batch run whose first window fails
but which still issues the next request. -/
theorem fetch_no_retry_witness :
    get_historical_data apiFail 0 1000000 1
      = ([Event.call (Req.mk 0 1000000 1000) (Except.error ())],
          FetchResult.exceptionEmpty)
    ∧ 2 ≤ (callsOf (get_historical_data_batch apiFailThenData iv1m 0 120000000 2).1).length :=
  ⟨(fetch_no_retry apiFail iv1m 0 1000000 1).1 0 rfl (by decide) (by decide),
   (fetch_no_retry apiFailThenData iv1m 0 120000000 2).2.2 0 rfl (by decide)
     (by decide) (by decide)⟩

/-- C8 counterexample: a batch fetch issues an API request that passed
through no rate limiter at all — its whole event trace contains a
request and not a single rate-limiter pass — so not every request of the
process goes through the shared limiter. -/
theorem rate_limiter_counterexample :
    (callsOf (get_historical_data_batch apiEmpty iv1h 0 100 3).1).length = 1
    ∧ ((get_historical_data_batch apiEmpty iv1h 0 100 3).1.all
        fun ev => !isRateLimitEv ev) = true := by decide

/-- C8 (amended): only the async fetch path guards its requests with the
rate limiter — in its trace every API request is immediately preceded by
a _rate_limit pass — while the batch fetch path (the one the thread-pool
collectors drive) performs no rate-limiter pass at all: its pacing is a
fixed 50 ms sleep per successful window, so the configured
max_requests_per_second = 10 ceiling does not govern its requests, and
the limiter that does exist is per collector instance, not
process-wide. -/
theorem rate_limiter_coverage (api : Req → Except Unit (List Kline))
    (interval : String) (start_time end_time : Int) (fuel : Nat) :
    rateLimitedTrace (get_historical_data_async api start_time end_time fuel).1
        = true
    ∧ ((get_historical_data_batch api interval start_time end_time fuel).1.all
        fun ev => !isRateLimitEv ev) = true := by
  refine ⟨ghda_go_rateLimited api end_time fuel start_time 0, ?_⟩
  rw [get_historical_data_batch_events]
  exact ghdb_go_no_rateLimit api interval end_time fuel start_time

end AutoGrowth
